import Mathlib

/-!
Verification development for the BBStats gateway-activity pipeline
(`server.js` / `functions/api/activity-summary.js` / `scripts/fetch-summary.js`).

The JavaScript pipeline is shallowly embedded: times are `Int` seconds or
milliseconds (JS numbers hold integral epoch values here), optional record
fields are `Option`, fallible calls return `Except`, and the upstream HTTP
API is an explicit function from segments to responses.  The server-resident
and script variants of each function are line-for-line equivalent for all of
the properties below; the embedding follows `server.js`, with deviations from
the edge variant noted where they matter.
-/

/-- Embedding of `Segment` — `{from, to}` in epoch seconds, `from = to = null` denotes the
unbounded "most recent records" query.  `from` is a Lean keyword, hence the
field names `from'` and `to'`. -/
structure Segment where
  from' : Option Int
  to' : Option Int
deriving DecidableEq

/-- Embedding of `RangeDescriptor` — one row of the `rangeOptions` table:
`{key, label, days}`, `days = null` (= `none`) meaning unbounded. -/
structure RangeDescriptor where
  key : String
  label : String
  days : Option Int
deriving DecidableEq

/-- ASCII lower-casing, standing in for `String.prototype.toLowerCase()`
(every string the claims evaluate is ASCII; full-Unicode case mapping is
not modelled).  Defined over the character list so concrete inputs reduce
inside the kernel. -/
def jsToLower (s : String) : String := String.mk (s.data.map Char.toLower)

/-- The static `rangeOptions` table from `server.js`. -/
def rangeOptions (key : String) : Option RangeDescriptor :=
  if key = "7d" then some ⟨"7d", "Last 7 days", some 7⟩
  else if key = "30d" then some ⟨"30d", "Last 30 days", some 30⟩
  else if key = "365d" then some ⟨"365d", "Last 365 days", some 365⟩
  else if key = "latest" then some ⟨"latest", "Latest 1000 records", none⟩
  else if key = "lifetime" then some ⟨"lifetime", "All available data", none⟩
  else none

/-- Embedding of `resolveRange`: normalize the key to lower case and fall back to the
default `"7d"` descriptor for unknown keys. -/
def resolveRange (rangeKey : String) : RangeDescriptor :=
  match rangeOptions (jsToLower rangeKey) with
  | some rd => rd
  | none => ⟨"7d", "Last 7 days", some 7⟩

/-- Embedding of `determineSegmentSeconds(rangeDescriptor)`: the step table keyed on the
day count; `null` for unbounded ranges. -/
def determineSegmentSeconds (rangeDescriptor : RangeDescriptor) : Option Int :=
  match rangeDescriptor.days with
  | none => none
  | some days =>
    if days ≤ 1 then some (6 * 60 * 60)
    else if days ≤ 3 then some (12 * 60 * 60)
    else if days ≤ 7 then some (24 * 60 * 60)
    else if days ≤ 30 then some (3 * 24 * 60 * 60)
    else if days ≤ 90 then some (7 * 24 * 60 * 60)
    else some (14 * 24 * 60 * 60)

/-- The bounded-range `while (segmentEnd > earliestSeconds)` walk of
`buildSegments`, embedded with an explicit iteration budget (`fuel`).  Each
iteration pushes `{from: max(earliest, end - step), to: end}` and either
breaks at the clipped boundary or continues from the segment start.  The
caller passes fuel that provably never runs out (each iteration moves
`segmentEnd` down by `step ≥ 1`). -/
def buildSegmentsGo (earliestSeconds segmentSeconds : Int) : Nat → Int → List Segment
  | 0, _ => []
  | fuel + 1, segmentEnd =>
    if segmentEnd > earliestSeconds then
      let segmentStart := max earliestSeconds (segmentEnd - segmentSeconds)
      { from' := some segmentStart, to' := some segmentEnd } ::
        (if segmentStart = earliestSeconds then []
         else buildSegmentsGo earliestSeconds segmentSeconds fuel segmentStart)
    else []

/-- The unbounded-range `while (segments.length < maxSegments)` walk: 30-day
slices clipped at epoch 0, at most `maxSegments` of them.  The remaining
segment budget (`maxSegments - segments.length`) is the recursion argument. -/
def buildSegmentsUnboundedGo (segmentSeconds : Int) : Nat → Int → List Segment
  | 0, _ => []
  | budget + 1, segmentEnd =>
    let segmentStart := max 0 (segmentEnd - segmentSeconds)
    { from' := some segmentStart, to' := some segmentEnd } ::
      (if segmentStart = 0 then []
       else buildSegmentsUnboundedGo segmentSeconds budget segmentStart)

/-- Embedding of `buildSegments(rangeDescriptor, nowSeconds)` — the Segment Planner. -/
def buildSegments (rangeDescriptor : RangeDescriptor) (nowSeconds : Int) : List Segment :=
  match rangeDescriptor.days with
  | none =>
    -- 30-day slices for lifetime views, maxSegments = 360 (roughly 30 years)
    buildSegmentsUnboundedGo (30 * 24 * 60 * 60) 360 nowSeconds
  | some days =>
    let earliestSeconds := max 0 (nowSeconds - days * 24 * 60 * 60)
    match determineSegmentSeconds rangeDescriptor with
    | some segmentSeconds =>
      buildSegmentsGo earliestSeconds segmentSeconds
        ((nowSeconds - earliestSeconds).toNat + 1) nowSeconds
    | none => []  -- unreachable: bounded descriptors always get a step size

/-- Specification predicate for C1 (written from the claim, to be checked
against `buildSegments`): the list walks newest-to-oldest from `e` down to
`earliest`, consecutive segments share exactly their boundary, every segment
but the last spans exactly `step`, and the last is clipped to `earliest`
with a positive span of at most `step`. -/
def segsSpan (step earliest : Int) : Int → List Segment → Bool
  | _, [] => false
  | e, [s] =>
    decide (s.from' = some earliest) && decide (s.to' = some e) &&
    decide (earliest < e) && decide (e - earliest ≤ step)
  | e, s :: s' :: rest =>
    decide (s.from' = some (e - step)) && decide (s.to' = some e) &&
    decide (earliest < e - step) &&
    segsSpan step earliest (e - step) (s' :: rest)

/-- A timestamp-ish JSON field value: absent/null, a number, or a string.
JS numbers are modelled as integers — the epoch values the pipeline handles
are integral, and no claim depends on fractional timestamps. -/
inductive TsValue where
  | null : TsValue
  | num : Int → TsValue
  | str : String → TsValue
deriving DecidableEq

/-- Embedding of `LogRecord` — the (optional) fields of an upstream log record that the
pipeline reads: the classification fields of `isBlocked`, the destination
fields of `extractDomain`, and the timestamp candidates of
`extractLogTimestamp` (`meta.timestamp` / `metadata.timestamp` flattened
into one field each).  All other upstream fields are never read. -/
structure LogRecord where
  action_name : Option String := none
  action : Option String := none
  blocked : Option Bool := none
  decision : Option String := none
  query : Option String := none
  hostname : Option String := none
  sni : Option String := none
  domain : Option String := none
  datetime : TsValue := TsValue.null
  timestamp : TsValue := TsValue.null
  time : TsValue := TsValue.null
  event_time : TsValue := TsValue.null
  log_time : TsValue := TsValue.null
  ts : TsValue := TsValue.null
  metaTimestamp : TsValue := TsValue.null
  metadataTimestamp : TsValue := TsValue.null
deriving DecidableEq

/-- One upstream HTTP response: the status code, the error body text (read
on non-2xx responses) and the parsed `result.logs` payload (read on 2xx;
a missing or malformed logs array is already modelled as `[]`, exactly what
the `Array.isArray` guard produces). -/
structure Resp where
  status : Nat
  body : String
  logs : List LogRecord
deriving DecidableEq

/-- Embedding of `response.ok` — status in the 2xx range. -/
def respOk (resp : Resp) : Bool :=
  decide (200 ≤ resp.status) && decide (resp.status < 300)

/-- The error thrown for a failed segment
(`Cloudflare API responded with status ...` — status plus error body;
the message formatting itself is cosmetic and not modelled). -/
structure UpstreamErr where
  status : Nat
  body : String
deriving DecidableEq

/-- Embedding of `fetchSegmentLogs(segment, headers, baseUrl, signal, depth)` — the
Segment Fetcher.  The upstream API is the explicit function `upstream`
(headers, base URL and the abort signal do not influence the modelled
control flow).  On a non-2xx response: if the status is 504, the segment is
bounded with span over an hour, and `depth < 5`, the segment is split at its
midpoint and both halves are fetched sequentially at `depth + 1` (the second
half only if the first succeeded, as with sequential `await`); otherwise the
error is thrown. -/
def fetchSegmentLogs (upstream : Segment → Resp) (segment : Segment) (depth : Nat) :
    Except UpstreamErr (List LogRecord) :=
  let resp := upstream segment
  if respOk resp then
    Except.ok resp.logs
  else
    match segment.from', segment.to' with
    | some f, some t =>
      let spanSeconds := max 0 (t - f)
      if h : resp.status = 504 ∧ 3600 < spanSeconds ∧ depth < 5 then
        let midpoint := f + spanSeconds / 2
        if f < midpoint ∧ midpoint < t then
          match fetchSegmentLogs upstream ⟨some f, some midpoint⟩ (depth + 1) with
          | Except.error e => Except.error e
          | Except.ok firstLogs =>
            match fetchSegmentLogs upstream ⟨some midpoint, some t⟩ (depth + 1) with
            | Except.error e => Except.error e
            | Except.ok secondLogs => Except.ok (firstLogs ++ secondLogs)
        else Except.error ⟨resp.status, resp.body⟩
      else Except.error ⟨resp.status, resp.body⟩
    | _, _ => Except.error ⟨resp.status, resp.body⟩
termination_by 5 - depth
decreasing_by
  all_goals (simp_wf; omega)

/-- Instrumentation for C3: mirrors the recursion of `fetchSegmentLogs` and
returns the greatest `depth` value passed to any (recursive) invocation. -/
def fetchMaxDepth (upstream : Segment → Resp) (segment : Segment) (depth : Nat) : Nat :=
  let resp := upstream segment
  if respOk resp then depth
  else
    match segment.from', segment.to' with
    | some f, some t =>
      let spanSeconds := max 0 (t - f)
      if h : resp.status = 504 ∧ 3600 < spanSeconds ∧ depth < 5 then
        let midpoint := f + spanSeconds / 2
        if f < midpoint ∧ midpoint < t then
          max (fetchMaxDepth upstream ⟨some f, some midpoint⟩ (depth + 1))
              (fetchMaxDepth upstream ⟨some midpoint, some t⟩ (depth + 1))
        else depth
      else depth
    | _, _ => depth
termination_by 5 - depth
decreasing_by
  all_goals (simp_wf; omega)

/-- A structured stand-in for one entry of `debug.messages`.  The source
pushes human-readable strings (with ISO-formatted dates); the embedding
records which message was pushed and its numeric content — the date
formatting itself is cosmetic and not modelled. -/
inductive TraceMsg where
  | segmentHeader : Nat → Nat → TraceMsg       -- `Segment i/total – range ...`
  | segmentSuccess : Nat → Nat → Nat → TraceMsg -- `Segment i returned n logs (accumulated m).`
  | segmentFailure : Nat → TraceMsg            -- `Segment i failed: ...`
  | emptyStreak : Nat → Nat → TraceMsg         -- `Segment i returned no logs (empty streak k).`
  | streakStop : TraceMsg                      -- three consecutive empty segments, stopping
  | streakReset : TraceMsg                     -- `Resetting empty segment streak due to new data.`
  | limitReached : Nat → TraceMsg              -- `Stopping early after collecting n logs ...`
  | fallbackStart : TraceMsg                   -- `Primary range returned no logs; falling back ...`
  | fallbackResult : Nat → TraceMsg            -- `Fallback segment returned n logs.`
  | completed : TraceMsg                       -- `Completed range ...`
deriving DecidableEq

/-- Embedding of `FetchDebugTrace` — the `debug` accumulator of `fetchGatewayLogs`.
`emptySegmentStreak` and `limitReached` start as JS `undefined`; `0` and
`false` model that (the code only ever tests their truthiness), and
`totalLogs` is `0` until set at completion. -/
structure FetchDebug where
  originalRangeKey : String
  originalRangeLabel : String
  requestedRangeKey : String
  requestedRangeLabel : String
  effectiveRangeKey : String
  effectiveRangeLabel : String
  segmentsPlanned : Nat
  segmentsAttempted : Nat
  segmentsSucceeded : Nat
  segmentsFailed : Nat
  fallbackUsed : Bool
  messages : List TraceMsg
  emptySegmentStreak : Nat
  limitReached : Bool
  totalLogs : Nat
deriving DecidableEq

/-- The `debug` object as initialised at the top of `fetchGatewayLogs`. -/
def initDebug (rangeDescriptor : RangeDescriptor) (planned : Nat) : FetchDebug :=
  { originalRangeKey := rangeDescriptor.key
    originalRangeLabel := rangeDescriptor.label
    requestedRangeKey := rangeDescriptor.key
    requestedRangeLabel := rangeDescriptor.label
    effectiveRangeKey := rangeDescriptor.key
    effectiveRangeLabel := rangeDescriptor.label
    segmentsPlanned := planned
    segmentsAttempted := 0
    segmentsSucceeded := 0
    segmentsFailed := 0
    fallbackUsed := false
    messages := []
    emptySegmentStreak := 0
    limitReached := false
    totalLogs := 0 }

/-- The mutable state of the segment loop in `fetchGatewayLogs`:
`collectedLogs` plus the debug trace. -/
structure CollectState where
  collectedLogs : List LogRecord
  debug : FetchDebug
deriving DecidableEq

/-- Test `collectedLogs.length >= maxLogs`, where `maxLogs` is
`Number.POSITIVE_INFINITY` (= `none`) for bounded ranges. -/
def limitHit (maxLogs : Option Nat) (st : CollectState) : Bool :=
  match maxLogs with
  | none => false
  | some m => decide (st.collectedLogs.length ≥ m)

/-- The early-stop state reached when the log cap is hit. -/
def markLimitReached (st : CollectState) : CollectState :=
  { st with debug := { st.debug with
      limitReached := true,
      messages := st.debug.messages ++ [TraceMsg.limitReached st.collectedLogs.length] } }

/-- The `for (const segment of segments)` loop of `fetchGatewayLogs`,
walking segments newest-to-oldest: per segment it counts the attempt,
fetches (with bisection), on failure records the failure and continues, on
success accumulates the logs, maintains the empty-segment streak for
unbounded ranges (three consecutive empty segments break the loop), and
breaks once the log cap is reached.  The model runs without a caller abort
signal (`signal` absent), so the `signal?.aborted` check never fires. -/
def collectSegments (upstream : Segment → Resp) (rangeDescriptor : RangeDescriptor)
    (maxLogs : Option Nat) (planned : Nat) : List Segment → CollectState → CollectState
  | [], st => st
  | segment :: rest, st =>
    let attempted := st.debug.segmentsAttempted + 1
    let st1 : CollectState :=
      { st with debug := { st.debug with
          segmentsAttempted := attempted,
          messages := st.debug.messages ++ [TraceMsg.segmentHeader attempted planned] } }
    match fetchSegmentLogs upstream segment 0 with
    | Except.error _ =>
      collectSegments upstream rangeDescriptor maxLogs planned rest
        { st1 with debug := { st1.debug with
            segmentsFailed := st1.debug.segmentsFailed + 1,
            messages := st1.debug.messages ++ [TraceMsg.segmentFailure attempted] } }
    | Except.ok logs =>
      let st2 : CollectState :=
        { collectedLogs := st1.collectedLogs ++ logs,
          debug := { st1.debug with
            segmentsSucceeded := st1.debug.segmentsSucceeded + 1,
            messages := st1.debug.messages ++
              [TraceMsg.segmentSuccess attempted logs.length (st1.collectedLogs ++ logs).length] } }
      if logs.length = 0 ∧ rangeDescriptor.days = none then
        let streak := st2.debug.emptySegmentStreak + 1
        let st3 : CollectState :=
          { st2 with debug := { st2.debug with
              emptySegmentStreak := streak,
              messages := st2.debug.messages ++ [TraceMsg.emptyStreak attempted streak] } }
        if streak ≥ 3 then
          { st3 with debug := { st3.debug with
              messages := st3.debug.messages ++ [TraceMsg.streakStop] } }
        else if limitHit maxLogs st3 then markLimitReached st3
        else collectSegments upstream rangeDescriptor maxLogs planned rest st3
      else
        let st3 : CollectState :=
          if 0 < logs.length ∧ st2.debug.emptySegmentStreak ≠ 0 then
            { st2 with debug := { st2.debug with
                emptySegmentStreak := 0,
                messages := st2.debug.messages ++ [TraceMsg.streakReset] } }
          else st2
        if limitHit maxLogs st3 then markLimitReached st3
        else collectSegments upstream rangeDescriptor maxLogs planned rest st3

/-- The result of `fetchGatewayLogs`: `{logs, debug}`. -/
structure GatewayFetchResult where
  logs : List LogRecord
  debug : FetchDebug
deriving DecidableEq

/-- Embedding of the head of `fetchGatewayLogs(rangeDescriptor, headers, options)` — the
Gateway Log Collector's planning and segment walk (`segments`, `maxLogs` and
the loop), named separately so theorems can speak about the walk's final
state.  The full collector is `fetchGatewayLogs` below: this walk, then the
fallback to one unbounded `{from: null, to: null}` "latest records" query
when the walk collected nothing (the fallback's failure, unlike per-segment
failures, does propagate, as in the source where the fallback `await` sits
outside the per-segment `try`). -/
def collectorRun (upstream : Segment → Resp) (rangeDescriptor : RangeDescriptor)
    (nowSeconds : Int) : CollectState :=
  let segments := buildSegments rangeDescriptor nowSeconds
  let maxLogs : Option Nat := if rangeDescriptor.days = none then some 200000 else none
  collectSegments upstream rangeDescriptor maxLogs segments.length segments
    ⟨[], initDebug rangeDescriptor segments.length⟩

/-- Embedding of the tail of `fetchGatewayLogs`: feed the walk's final state
into the zero-logs fallback check and produce `{logs, debug}`. -/
def fetchGatewayLogs (upstream : Segment → Resp) (rangeDescriptor : RangeDescriptor)
    (nowSeconds : Int) : Except UpstreamErr GatewayFetchResult :=
  let st := collectorRun upstream rangeDescriptor nowSeconds
  if st.collectedLogs.length = 0 then
    let debug := { st.debug with
      fallbackUsed := true,
      effectiveRangeKey := "latest",
      effectiveRangeLabel := "Latest 1000 records",
      messages := st.debug.messages ++ [TraceMsg.fallbackStart] }
    match fetchSegmentLogs upstream ⟨none, none⟩ 0 with
    | Except.error e => Except.error e
    | Except.ok fallbackLogs =>
      Except.ok ⟨fallbackLogs, { debug with
        totalLogs := fallbackLogs.length,
        segmentsPlanned := debug.segmentsPlanned + 1,
        segmentsAttempted := debug.segmentsAttempted + 1,
        segmentsSucceeded := debug.segmentsSucceeded + 1,
        messages := debug.messages ++ [TraceMsg.fallbackResult fallbackLogs.length] }⟩
  else
    Except.ok ⟨st.collectedLogs, { st.debug with
      totalLogs := st.collectedLogs.length,
      messages := st.debug.messages ++ [TraceMsg.completed] }⟩

/-- The ambient JavaScript string-to-number machinery used by
`parseTimestampValue`: `Number(trimmed)` (returning `none` for `NaN`) and
`Date.parse(trimmed)` (returning `none` for an unparseable date).  Both are
kept abstract — their internals are irrelevant to every claim, which only
distinguish "parsed to a number" from "unparseable". -/
structure JsDate where
  numberOfString : String → Option Int
  dateParse : String → Option Int

/-- The numeric branch of `parseTimestampValue`: `> 1e12` is already epoch
milliseconds, `> 1e5` is epoch seconds and scaled, anything else is not a
plausible timestamp. -/
def parseTimestampNum (value : Int) : Option Int :=
  if value > 1000000000000 then some value
  else if value > 100000 then some (value * 1000)
  else none

/-- Embedding of `parseTimestampValue(value)`: `null`/absent parses to nothing, numbers
go through the magnitude heuristic, and strings are trimmed, parsed as a
number when possible (the source then recurses into the numeric case, here
`parseTimestampNum`), otherwise handed to `Date.parse`. -/
def parseTimestampValue (env : JsDate) : TsValue → Option Int
  | TsValue.null => none
  | TsValue.num value => parseTimestampNum value
  | TsValue.str value =>
    let trimmed := value.trim
    if trimmed = "" then none
    else
      match env.numberOfString trimmed with
      | some numeric => parseTimestampNum numeric
      | none => env.dateParse trimmed

/-- Embedding of `extractLogTimestamp(log)`: the first candidate timestamp field that
parses wins; `none` is the "unknown" sentinel. -/
def extractLogTimestamp (env : JsDate) (log : LogRecord) : Option Int :=
  [log.datetime, log.timestamp, log.time, log.event_time, log.log_time, log.ts,
   log.metaTimestamp, log.metadataTimestamp].findSome? (parseTimestampValue env)

/-- Constant `DAY_IN_MS`. -/
def DAY_IN_MS : Int := 24 * 60 * 60 * 1000

/-- Embedding of `formatRecordCount(count)` — the source calls `toLocaleString()`; the
locale-dependent digit grouping is cosmetic and not modelled. -/
def formatRecordCount (count : Nat) : String := toString count

/-- One element of the `enriched` array: `{log, timestamp}`. -/
structure EnrichedLog where
  log : LogRecord
  timestamp : Option Int
deriving DecidableEq

/-- Embedding of `describeCoverage(rangeDescriptor, entries, totalCount)` — the
human-readable coverage label.  JS float division/rounding on `spanDays` is
modelled with exact rationals (all claims ignore this label; it is embedded
for completeness of `filterLogsByRange`). -/
def describeCoverage (rangeDescriptor : RangeDescriptor) (entries : List EnrichedLog)
    (totalCount : Nat) : String :=
  match entries.filterMap (fun entry => entry.timestamp) with
  | [] =>
    match rangeDescriptor.days with
    | none => "Latest " ++ formatRecordCount totalCount ++ " records"
    | some _ => rangeDescriptor.label ++ " (limited to available records)"
  | t0 :: trest =>
    let latest := (t0 :: trest).foldl max t0
    let earliest := (t0 :: trest).foldl min t0
    let spanMs := max 0 (latest - earliest)
    let spanDays : ℚ := (spanMs : ℚ) / (DAY_IN_MS : ℚ)
    match rangeDescriptor.days with
    | none =>
      if spanDays ≥ 1 then
        "Latest " ++ formatRecordCount totalCount ++ " records (~" ++
          toString (max 1 (round spanDays)) ++ " days)"
      else "Latest " ++ formatRecordCount totalCount ++ " records (past few hours)"
    | some days =>
      if spanDays ≥ (days : ℚ) - 1 / 2 then rangeDescriptor.label
      else if spanDays ≥ 1 then "Last ~" ++ toString (max 1 (round spanDays)) ++ " days"
      else "Last few hours"

/-- The `{logs, effectiveRange, effectiveRangeLabel}` result of
`filterLogsByRange`. -/
structure FilterResult where
  logs : List LogRecord
  effectiveRange : String
  effectiveRangeLabel : String
deriving DecidableEq

/-- Embedding of `filterLogsByRange(logs, rangeDescriptor)` — the Range Post-Filter.
For bounded ranges: anchor on the maximum parseable timestamp, drop entries
strictly older than `anchor - days * DAY_IN_MS`, but keep every entry whose
timestamp did not parse; if nothing parses, keep everything and relabel as
"latest".  Unbounded ranges are returned unfiltered. -/
def filterLogsByRange (env : JsDate) (logs : List LogRecord)
    (rangeDescriptor : RangeDescriptor) : FilterResult :=
  match logs with
  | [] => ⟨[], rangeDescriptor.key, rangeDescriptor.label⟩
  | _ :: _ =>
    let enriched := logs.map (fun log => EnrichedLog.mk log (extractLogTimestamp env log))
    match rangeDescriptor.days with
    | none => ⟨logs, rangeDescriptor.key, describeCoverage rangeDescriptor enriched logs.length⟩
    | some days =>
      -- `known = enriched.filter(e => e.timestamp !== null)`, of which only the
      -- timestamps are used; `filterMap` extracts exactly those
      match enriched.filterMap (fun entry => entry.timestamp) with
      | [] => ⟨logs, "latest", "Latest " ++ formatRecordCount logs.length ++ " records"⟩
      | t0 :: trest =>
        -- `known.reduce((max, e) => e.timestamp > max ? e.timestamp : max, known[0].timestamp)`
        let maxTimestamp := (t0 :: trest).foldl (fun mx t => if t > mx then t else mx) t0
        let cutoff := maxTimestamp - days * DAY_IN_MS
        let filteredEntries := enriched.filter (fun entry =>
          match entry.timestamp with
          | none => true
          | some t => decide (t ≥ cutoff))
        let filteredLogs := filteredEntries.map (fun entry => entry.log)
        ⟨filteredLogs, rangeDescriptor.key,
          describeCoverage rangeDescriptor filteredEntries filteredLogs.length⟩

/-- Case-insensitive "contains the letters b-l-o-c-k" on a char list. -/
def listContainsBlock : List Char → Bool
  | [] => false
  | c :: rest => ['b', 'l', 'o', 'c', 'k'].isPrefixOf (c :: rest) || listContainsBlock rest

/-- Embedding of the regex test `/(dns|tls)?_?block/i.test(s)` (and of `/block/i.test(s)`): since the
`(dns|tls)?` and `_?` parts are optional, the pattern matches exactly when
`s` contains `"block"` case-insensitively. -/
def containsBlockCI (s : String) : Bool := listContainsBlock (jsToLower s).data

/-- Embedding of `isBlocked(log)` — the `server.js` / `fetch-summary.js` variant with
`blockPattern = /(dns|tls)?_?block/i`.  (The edge-function variant at
`functions/api/activity-summary.js` uses `/\b(block|blocked)\b/i` instead;
see `isBlockedEdge`.) -/
def isBlocked (log : LogRecord) : Bool :=
  let actionField := (log.action_name.or log.action).getD ""
  if containsBlockCI actionField then true
  else if log.blocked = some true then true
  else
    match log.decision with
    | some decision => containsBlockCI decision
    | none => false

/-- Whether `cs` matched at this position satisfies `\b(block|blocked)\b`:
the previous character (if any) is a non-word character, then the literal,
then a non-word character or the end.  Word characters are `[A-Za-z0-9_]`. -/
def isWordChar (c : Char) : Bool :=
  (('a' ≤ c && c ≤ 'z') || ('A' ≤ c && c ≤ 'Z') || ('0' ≤ c && c ≤ '9') || c = '_')

/-- One-position matcher for `(block|blocked)` followed by a word boundary. -/
def blockWordAt : List Char → Bool
  | 'b' :: 'l' :: 'o' :: 'c' :: 'k' :: 'e' :: 'd' :: rest =>
    match rest with
    | [] => true
    | c :: _ => !isWordChar c
  | 'b' :: 'l' :: 'o' :: 'c' :: 'k' :: rest =>
    match rest with
    | [] => true
    | c :: _ => !isWordChar c
  | _ => false

/-- Scanner for `/\b(block|blocked)\b/` over a (lower-cased) char list;
`prevIsWord` tracks whether the previous character was a word character
(no boundary before the match if so). -/
def blockWordScan : Bool → List Char → Bool
  | _, [] => false
  | prevIsWord, c :: rest =>
    (!prevIsWord && blockWordAt (c :: rest)) || blockWordScan (isWordChar c) rest

/-- Embedding of the edge regex test `/\b(block|blocked)\b/i.test(s)`. -/
def testBlockWord (s : String) : Bool := blockWordScan false (jsToLower s).data

/-- Embedding of `isBlocked(log)` — the edge-function variant
(`functions/api/activity-summary.js` lines 41–47), whose action-field test
is the word-bounded `/\b(block|blocked)\b/i` rather than the substring
pattern of `server.js`. -/
def isBlockedEdge (log : LogRecord) : Bool :=
  let actionField := (log.action_name.or log.action).getD ""
  if testBlockWord actionField then true
  else if log.blocked = some true then true
  else
    match log.decision with
    | some decision => containsBlockCI decision
    | none => false

/-- Embedding of `extractDomain(log)`. -/
def extractDomain (log : LogRecord) : String :=
  jsToLower ((((log.query.or log.hostname).or log.sni).or log.domain).getD "unknown")

/-- One `{name, count}` row of `topBlocked`. -/
structure DomainCount where
  name : String
  count : Nat
deriving DecidableEq

/-- Embedding of `totals`. -/
structure Totals where
  blocked : Nat
  allowed : Nat
deriving DecidableEq

/-- Embedding of `Summary` — `{topBlocked, totals}` (the script variant adds a
`topBlockedNormalized` list, not involved in any claim). -/
structure Summary where
  topBlocked : List DomainCount
  totals : Totals
deriving DecidableEq

/-- Embedding of `domainCounts.set(domain, (domainCounts.get(domain) ?? 0) + 1)` on a JS
`Map`, which preserves insertion order: bump an existing key in place or
append a new one. -/
def bumpCount (counts : List DomainCount) (domain : String) : List DomainCount :=
  match counts with
  | [] => [⟨domain, 1⟩]
  | c :: rest =>
    if c.name = domain then ⟨c.name, c.count + 1⟩ :: rest else c :: bumpCount rest domain

/-- Stable insertion into a count-descending list: equal counts keep their
existing (insertion) order, as JS `Array.prototype.sort` is stable and the
comparator is `(a, b) => b[1] - a[1]`. -/
def insertByCountDesc (x : DomainCount) : List DomainCount → List DomainCount
  | [] => [x]
  | y :: rest => if y.count > x.count then y :: insertByCountDesc x rest else x :: y :: rest

/-- Stable sort by descending count. -/
def sortByCountDesc : List DomainCount → List DomainCount
  | [] => []
  | x :: rest => insertByCountDesc x (sortByCountDesc rest)

/-- The accumulator of the `logs.forEach` in `summarizeLogs`. -/
structure SummarizeState where
  domainCounts : List DomainCount
  blockedCount : Nat
  allowedCount : Nat

/-- Embedding of `summarizeLogs(logs)` — the Aggregator: classify each record, count
blocked hits per (lower-cased) destination, and report the ten most frequent
blocked destinations with blocked/allowed totals. -/
def summarizeLogs (logs : List LogRecord) : Summary :=
  let st := logs.foldl
    (fun (st : SummarizeState) log =>
      if isBlocked log then
        { st with
          blockedCount := st.blockedCount + 1,
          domainCounts := bumpCount st.domainCounts (extractDomain log) }
      else { st with allowedCount := st.allowedCount + 1 })
    ⟨[], 0, 0⟩
  { topBlocked := (sortByCountDesc st.domainCounts).take 10,
    totals := ⟨st.blockedCount, st.allowedCount⟩ }

/-- Embedding of `dedupeLogs(logs)`: in `server.js` it is the identity on arrays (the array
check is vacuous here: the embedding's log lists are always arrays). -/
def dedupeLogs (logs : List LogRecord) : List LogRecord := logs

/-- The `meta` object inside a cached edge response body; `fetchedAt` is
`none` when absent or not a number (the only distinction `isFresh` makes). -/
structure EdgeMeta where
  fetchedAt : Option Int
  fromCache : Bool
deriving DecidableEq

/-- The parsed JSON body the edge function caches:
`{...summary, meta, requestedRange}`. -/
structure CachedSummary where
  topBlocked : List DomainCount
  totals : Totals
  meta : Option EdgeMeta
  requestedRange : String
deriving DecidableEq

/-- The edge function's `isFresh(entry)`: an entry with a numeric
`meta.fetchedAt` whose age is below the TTL. -/
def isFresh (entry : Option CachedSummary) (now ttlMs : Int) : Bool :=
  match entry with
  | none => false
  | some e =>
    match e.meta with
    | none => false
    | some m =>
      match m.fetchedAt with
      | none => false
      | some fetchedAt => decide (now - fetchedAt < ttlMs)

/-- Embedding of `{...cachedJson, meta: {...cachedJson.meta, fromCache: true}}` — the
served copy of a cached body, marked as coming from the cache. -/
def markFromCache (cachedJson : CachedSummary) : CachedSummary :=
  { cachedJson with
    meta := some ⟨(match cachedJson.meta with
                   | some m => m.fetchedAt
                   | none => none), true⟩ }

/-- What the edge `onRequest` does with the cache before (or instead of)
fetching: serve a fresh hit, serve a stale body while scheduling a
`waitUntil` background refresh, or fall through to a synchronous fetch. -/
inductive EdgeAction where
  | hit : CachedSummary → EdgeAction
  | staleRefresh : CachedSummary → EdgeAction
  | syncFetch : EdgeAction
deriving DecidableEq

/-- The cache-consultation path of the edge `onRequest` (lines 139–184 of
`functions/api/activity-summary.js`): with a cached, parseable body and no
`force`, a fresh entry is served as a HIT and a non-fresh entry is served
as-is (STALE) while `waitUntil(fetchAndCache())` refreshes in the
background; in every other case the fetch happens synchronously.
`cached = none` covers a missing cache entry and an unreadable body alike.
The served body is a function of the cached body alone — by construction it
cannot depend on the result of the background refresh, which is the
"never blocked on the refresh" guarantee in this model. -/
def onRequestCachePath (cached : Option CachedSummary) (forceRefresh : Bool)
    (now ttlMs : Int) : EdgeAction :=
  match cached, forceRefresh with
  | some cachedJson, false =>
    if isFresh (some cachedJson) now ttlMs then EdgeAction.hit (markFromCache cachedJson)
    else EdgeAction.staleRefresh (markFromCache cachedJson)
  | _, _ => EdgeAction.syncFetch

/-- A `rangeCache` entry in `server.js` (the in-flight `promise` and
`controller` fields are represented by the request-granularity model below
rather than stored).  The cached `meta` is the debug trace with `messages`
emptied; its few extra scalar fields (`filteredLogCount`, ISO-formatted
dates, ...) are derived values not modelled separately. -/
structure CacheEntry where
  summary : Option Summary
  meta : Option FetchDebug
  fetchedAt : Int
  expiresAt : Int
  logs : List LogRecord
deriving DecidableEq

/-- Embedding of `isCacheValid(entry)`: a stored summary whose `expiresAt` is still in
the future. -/
def isCacheValid (entry : Option CacheEntry) (now : Int) : Bool :=
  match entry with
  | none => false
  | some entry => entry.summary.isSome && decide (entry.expiresAt > now)

/-- How the awaited `fetchPromise` of `ensureRangeCached` ends: the
collector succeeded (at wall-clock time `fetchTimestamp = Date.now()`),
threw an upstream error, or was aborted (`AbortError`). -/
inductive FetchOutcome where
  | success : GatewayFetchResult → Int → FetchOutcome
  | upstreamFailure : UpstreamErr → FetchOutcome
  | abortError : FetchOutcome
deriving DecidableEq

/-- How one `ensureRangeCached` call ends. -/
inductive EnsureErr where
  | abortError : EnsureErr
  | upstreamErr : UpstreamErr → EnsureErr
deriving DecidableEq

/-- The observable result of one `ensureRangeCached` call: what it returns
or throws, the cache entry for the key afterwards, and how many upstream
fetch runs it started (0 when served from cache). -/
structure EnsureResult where
  outcome : Except EnsureErr Summary
  cacheAfter : Option CacheEntry
  upstreamCalls : Nat

/-- The fetch path of `ensureRangeCached` (the body of `fetchPromise`):
on success, post-process with `dedupeLogs` → effective-descriptor
resolution → `filterLogsByRange` → `summarizeLogs`, then store the entry
with `expiresAt = fetchTimestamp + ttl`; on any thrown error — including
`AbortError` — `rangeCache.delete(cacheKey)` runs and the error is
rethrown. -/
def ensureFetchPath (env : JsDate) (rangeDescriptor : RangeDescriptor) (ttlMs : Int)
    (fetchOutcome : FetchOutcome) : EnsureResult :=
  match fetchOutcome with
  | FetchOutcome.success res fetchTimestamp =>
    let mergedRawLogs := dedupeLogs res.logs
    let effectiveDescriptor :=
      if res.debug.effectiveRangeKey ≠ "" ∧ res.debug.effectiveRangeKey ≠ rangeDescriptor.key
      then resolveRange res.debug.effectiveRangeKey
      else rangeDescriptor
    let filtered := filterLogsByRange env mergedRawLogs effectiveDescriptor
    let expiresAt := fetchTimestamp + ttlMs
    let summary := summarizeLogs filtered.logs
    let cacheMeta := { res.debug with messages := [] }
    { outcome := Except.ok summary,
      cacheAfter := some ⟨some summary, some cacheMeta, fetchTimestamp, expiresAt, mergedRawLogs⟩,
      upstreamCalls := 1 }
  | FetchOutcome.upstreamFailure e =>
    { outcome := Except.error (EnsureErr.upstreamErr e), cacheAfter := none, upstreamCalls := 1 }
  | FetchOutcome.abortError =>
    { outcome := Except.error EnsureErr.abortError, cacheAfter := none, upstreamCalls := 1 }

/-- Embedding of `ensureRangeCached(rangeDescriptor, options)` at request granularity:
a valid (`isCacheValid`) entry short-circuits a non-forced call with zero
upstream work and an unchanged cache; otherwise the fetch path runs and its
`fetchOutcome` decides the final state.  The in-flight placeholder entry
(same summary/meta/logs plus `promise`/`controller`) that exists only while
the fetch is awaited, and the join-or-supersede handling of a concurrent
in-flight promise, are below this model's request granularity; the states
it relates are those before and after one complete call. -/
def ensureRangeCached (env : JsDate) (rangeDescriptor : RangeDescriptor)
    (entry : Option CacheEntry) (forceRefresh : Bool) (now ttlMs : Int)
    (fetchOutcome : FetchOutcome) : EnsureResult :=
  match entry with
  | some ⟨some s, meta, fetchedAt, expiresAt, logs⟩ =>
    if forceRefresh = false ∧ now < expiresAt then
      { outcome := Except.ok s,
        cacheAfter := some ⟨some s, meta, fetchedAt, expiresAt, logs⟩,
        upstreamCalls := 0 }
    else ensureFetchPath env rangeDescriptor ttlMs fetchOutcome
  | some ⟨none, _, _, _, _⟩ => ensureFetchPath env rangeDescriptor ttlMs fetchOutcome
  | none => ensureFetchPath env rangeDescriptor ttlMs fetchOutcome

/-- A JS ambience in which no string parses as a number or date. -/
def jsDateNone : JsDate := ⟨fun _ => none, fun _ => none⟩

/-- A sample upstream record used by the concrete witnesses. -/
def sampleLog : LogRecord := { query := some "a.example" }

/-- An upstream that times out (504) on any span wider than an hour and
answers narrower spans with one record. -/
def bisectUpstream : Segment → Resp := fun segment =>
  match segment.from', segment.to' with
  | some f, some t => if 3600 < t - f then ⟨504, "timeout", []⟩ else ⟨200, "", [sampleLog]⟩
  | _, _ => ⟨200, "", [sampleLog]⟩

/-- An upstream that always answers 504. -/
def timeout504Upstream : Segment → Resp := fun _ => ⟨504, "upstream timeout", []⟩

/-- An upstream that always fails with a terminal 500. -/
def failingUpstream : Segment → Resp := fun _ => ⟨500, "boom", []⟩

/-- An upstream with no data in any bounded window but records behind the
unbounded "latest" query. -/
def emptyThenLatestUpstream : Segment → Resp := fun segment =>
  match segment.from' with
  | none => ⟨200, "", [sampleLog]⟩
  | some _ => ⟨200, "", []⟩

/-- An upstream that always succeeds with one record. -/
def okUpstream : Segment → Resp := fun _ => ⟨200, "", [sampleLog]⟩

/-- A bounded one-day descriptor used by the collector witnesses. -/
def oneDayRange : RangeDescriptor := ⟨"1d", "One day", some 1⟩

/-- A record with no parseable timestamp field. -/
def noTsLog : LogRecord := {}

/-- A record with a millisecond-epoch numeric timestamp. -/
def tsLog : LogRecord := { timestamp := TsValue.num 2000000000000 }

/-- A cached edge body fetched at 100 (stale once `ttl ≤ now - 100`). -/
def staleJson : CachedSummary := ⟨[⟨"ads.example.com", 2⟩], ⟨2, 1⟩, some ⟨some 100, false⟩, "7d"⟩

/-- A cached summary value for the server-cache witnesses. -/
def cachedSummary0 : Summary := ⟨[⟨"ads.example.com", 2⟩], ⟨2, 1⟩⟩

/-- A fresh server-cache entry: fetched at 1000 with a 6-hour TTL. -/
def freshEntry : CacheEntry := ⟨some cachedSummary0, none, 1000, 1000 + 21600000, []⟩

/-- A stale server-cache entry holding previously cached data. -/
def priorEntry : CacheEntry := ⟨some cachedSummary0, none, 100, 150, [sampleLog]⟩

/-- First record of the C10 end-to-end example. -/
def c10Log1 : LogRecord := { action := some "dns_block", query := some "ads.example.com" }

/-- Second record of the C10 end-to-end example. -/
def c10Log2 : LogRecord := { action := some "allow", query := some "ok.example.com" }

/-- Third record of the C10 end-to-end example. -/
def c10Log3 : LogRecord := { action := some "tls_block", query := some "ads.example.com" }

theorem segsSpan_cons (step earliest e : Int) (L : List Segment)
    (h1 : earliest < e - step) (h2 : segsSpan step earliest (e - step) L = true) :
    segsSpan step earliest e ({ from' := some (e - step), to' := some e } :: L) = true := by
  cases L with
  | nil => simp [segsSpan] at h2
  | cons a L' => simp [segsSpan, h1, h2]

theorem buildSegmentsGo_spec (step : Int) (hstep : 0 < step) :
    ∀ (fuel : Nat) (earliest e : Int), earliest < e → (e - earliest).toNat ≤ fuel →
      segsSpan step earliest e (buildSegmentsGo earliest step fuel e) = true := by
  intro fuel
  induction fuel with
  | zero => intro earliest e hlt hfuel; omega
  | succ n ih =>
    intro earliest e hlt hfuel
    rcases le_or_lt (e - step) earliest with hle | hgt
    · have hstart : max earliest (e - step) = earliest := max_eq_left hle
      have hspan : e - earliest ≤ step := by omega
      simp only [buildSegmentsGo, if_pos hlt, hstart, if_pos rfl]
      simp [segsSpan, hlt, hspan]
    · have hstart : max earliest (e - step) = e - step := max_eq_right (le_of_lt hgt)
      have hne : e - step ≠ earliest := by omega
      simp only [buildSegmentsGo, if_pos hlt, hstart, if_neg hne]
      exact segsSpan_cons step earliest e _ hgt (ih earliest (e - step) hgt (by omega))

theorem determineSegmentSeconds_pos (rd : RangeDescriptor) (step : Int)
    (h : determineSegmentSeconds rd = some step) : 0 < step := by
  unfold determineSegmentSeconds at h
  rcases hd : rd.days with _ | d <;> rw [hd] at h <;> simp only [] at h
  · exact absurd h (by simp)
  · split_ifs at h <;> (injection h with h2; omega)

/-- C1 — For every bounded range descriptor with `days = d` and every `now`
with `d * 86400 ≤ now` (the code clips the walk at epoch 0, so earlier `now`
values cover `[0, now]` instead), the Segment Planner output is a
newest-to-oldest sequence spanning exactly `[now - d*86400, now]`, gap-free
and overlap-free beyond shared boundaries, each segment spanning the step
table's size for `d` except the final segment, clipped to the boundary. -/
theorem buildSegments_bounded_spans (key label : String) (d nowSeconds step : Int)
    (hd : 1 ≤ d) (hnow : d * 86400 ≤ nowSeconds)
    (hstep : determineSegmentSeconds ⟨key, label, some d⟩ = some step) :
    segsSpan step (nowSeconds - d * 86400) nowSeconds
      (buildSegments ⟨key, label, some d⟩ nowSeconds) = true := by
  have hpos : 0 < step := determineSegmentSeconds_pos _ _ hstep
  have hearl : max 0 (nowSeconds - d * 24 * 60 * 60) = nowSeconds - d * 86400 := by
    have h86 : d * 24 * 60 * 60 = d * 86400 := by ring
    rw [h86]
    exact max_eq_right (by omega)
  have hlt : nowSeconds - d * 86400 < nowSeconds := by omega
  unfold buildSegments
  simp only [hstep, hearl]
  exact buildSegmentsGo_spec step hpos _ _ _ hlt (Nat.le_succ _)

/-- Witness for C1 at `d = 7`, `now = 1700000000`. -/
theorem buildSegments_bounded_spans_witness :
    segsSpan 86400 (1700000000 - 7 * 86400) 1700000000
      (buildSegments ⟨"7d", "Last 7 days", some 7⟩ 1700000000) = true :=
  buildSegments_bounded_spans "7d" "Last 7 days" 7 1700000000 86400
    (by decide) (by decide) (by decide)

/-- Counterexample to C1 as stated: at `now = 0` (claim quantifies over every
current time) the `7d` planner emits no segments at all, because the code
clips the earliest boundary at epoch 0; the output does not span
`[now - 7*86400, now] = [-604800, 0]`. -/
theorem buildSegments_bounded_spans_counterexample :
    segsSpan 86400 ((0 : Int) - 7 * 86400) 0
      (buildSegments ⟨"7d", "Last 7 days", some 7⟩ 0) = false := by
  decide


/-- C2 — For every fetch of a bounded segment `[f, t)` of span over an hour
at `depth < 5` whose upstream response is a 504, the fetcher splits the
segment at its midpoint into two sub-segments whose spans sum to the
original span, fetches the earlier half first and then the later half at
`depth + 1` (the later half only after the earlier one succeeded, as the
sequential `await`s do), and on two successes returns the first half's
records followed by the second half's. -/
theorem fetchSegmentLogs_504_bisects (upstream : Segment → Resp) (f t : Int) (depth : Nat)
    (hspan : 3600 < t - f) (hdepth : depth < 5)
    (h504 : (upstream ⟨some f, some t⟩).status = 504) :
    ((f + (t - f) / 2) - f) + (t - (f + (t - f) / 2)) = t - f ∧
    fetchSegmentLogs upstream ⟨some f, some t⟩ depth =
      (match fetchSegmentLogs upstream ⟨some f, some (f + (t - f) / 2)⟩ (depth + 1) with
       | Except.error e => Except.error e
       | Except.ok firstLogs =>
         match fetchSegmentLogs upstream ⟨some (f + (t - f) / 2), some t⟩ (depth + 1) with
         | Except.error e => Except.error e
         | Except.ok secondLogs => Except.ok (firstLogs ++ secondLogs)) ∧
    (∀ firstLogs secondLogs,
      fetchSegmentLogs upstream ⟨some f, some (f + (t - f) / 2)⟩ (depth + 1) =
        Except.ok firstLogs →
      fetchSegmentLogs upstream ⟨some (f + (t - f) / 2), some t⟩ (depth + 1) =
        Except.ok secondLogs →
      fetchSegmentLogs upstream ⟨some f, some t⟩ depth =
        Except.ok (firstLogs ++ secondLogs)) := by
  have hok : respOk (upstream ⟨some f, some t⟩) = false := by
    simp [respOk, h504]
  have hmax : max 0 (t - f) = t - f := max_eq_right (by omega)
  have hmain : fetchSegmentLogs upstream ⟨some f, some t⟩ depth =
      (match fetchSegmentLogs upstream ⟨some f, some (f + (t - f) / 2)⟩ (depth + 1) with
       | Except.error e => Except.error e
       | Except.ok firstLogs =>
         match fetchSegmentLogs upstream ⟨some (f + (t - f) / 2), some t⟩ (depth + 1) with
         | Except.error e => Except.error e
         | Except.ok secondLogs => Except.ok (firstLogs ++ secondLogs)) := by
    conv_lhs => rw [fetchSegmentLogs]
    simp only [hok, Bool.false_eq_true, if_false, hmax]
    rw [dif_pos ⟨h504, by omega, hdepth⟩]
    rw [if_pos ⟨by omega, by omega⟩]
  refine ⟨by omega, hmain, ?_⟩
  intro firstLogs secondLogs h1 h2
  rw [hmain, h1, h2]

/-- Witness for C2: `bisectUpstream` times out on `[0, 7200)` and the two
3600-second halves succeed with one record each, which the bisected fetch
concatenates. -/
theorem fetchSegmentLogs_504_bisects_witness :
    fetchSegmentLogs bisectUpstream ⟨some 0, some 7200⟩ 0 =
      Except.ok ([sampleLog] ++ [sampleLog]) := by
  have h := fetchSegmentLogs_504_bisects bisectUpstream 0 7200 0
    (by decide) (by decide) (by decide)
  refine h.2.2 [sampleLog] [sampleLog] ?_ ?_ <;>
    (rw [fetchSegmentLogs]; simp [bisectUpstream, respOk])

theorem fetchMaxDepth_le (upstream : Segment → Resp) :
    ∀ (n depth : Nat), 5 - depth ≤ n → depth ≤ 5 → ∀ segment : Segment,
      fetchMaxDepth upstream segment depth ≤ 5 := by
  intro n
  induction n with
  | zero =>
    intro depth hn hd seg
    rw [fetchMaxDepth]
    split
    · exact hd
    · split
      · dsimp only
        split
        · next h =>
          exact absurd h.2.2 (by omega)
        · exact hd
      · exact hd
  | succ n ih =>
    intro depth hn hd seg
    rw [fetchMaxDepth]
    split
    · exact hd
    · split
      · dsimp only
        split
        · next h =>
          split
          · exact max_le (ih (depth + 1) (by omega) (by omega) _)
              (ih (depth + 1) (by omega) (by omega) _)
          · exact hd
        · exact hd
      · exact hd

/-- C3 — The bisection recursion never passes a depth beyond 5 (and the
recursion is total, as `fetchMaxDepth`/`fetchSegmentLogs` are Lean
functions); a bounded segment answered 504 at depth 5 is not split again but
fails with the upstream error; and the collector handles a failed segment by
counting it failed once and moving on to the remaining segments — the failed
segment is not fetched again. -/
theorem bisection_depth_capped :
    (∀ (upstream : Segment → Resp) (segment : Segment),
        fetchMaxDepth upstream segment 0 ≤ 5) ∧
    (∀ (upstream : Segment → Resp) (f t : Int),
        (upstream ⟨some f, some t⟩).status = 504 →
        fetchSegmentLogs upstream ⟨some f, some t⟩ 5 =
          Except.error ⟨504, (upstream ⟨some f, some t⟩).body⟩) ∧
    (∀ (upstream : Segment → Resp) (rangeDescriptor : RangeDescriptor)
        (maxLogs : Option Nat) (planned : Nat) (segment : Segment)
        (rest : List Segment) (st : CollectState) (e : UpstreamErr),
        fetchSegmentLogs upstream segment 0 = Except.error e →
        ∃ st', collectSegments upstream rangeDescriptor maxLogs planned
                 (segment :: rest) st =
               collectSegments upstream rangeDescriptor maxLogs planned rest st' ∧
               st'.debug.segmentsFailed = st.debug.segmentsFailed + 1 ∧
               st'.collectedLogs = st.collectedLogs) := by
  refine ⟨?_, ?_, ?_⟩
  · intro upstream segment
    exact fetchMaxDepth_le upstream 5 0 (by omega) (by omega) segment
  · intro upstream f t h504
    have hok : respOk (upstream ⟨some f, some t⟩) = false := by
      simp [respOk, h504]
    rw [fetchSegmentLogs]
    simp only [hok, Bool.false_eq_true, if_false]
    rw [dif_neg (by omega)]
    rw [h504]
  · intro upstream rangeDescriptor maxLogs planned segment rest st e hfail
    refine ⟨{ st with debug := { st.debug with
        segmentsAttempted := st.debug.segmentsAttempted + 1,
        segmentsFailed := st.debug.segmentsFailed + 1,
        messages := st.debug.messages
          ++ [TraceMsg.segmentHeader (st.debug.segmentsAttempted + 1) planned]
          ++ [TraceMsg.segmentFailure (st.debug.segmentsAttempted + 1)] } }, ?_, rfl, rfl⟩
    simp only [collectSegments, hfail]

/-- Witness for C3 with an upstream that always answers 504: the depth
instrumentation stays at most 5, the fetch at depth 5 reports the 504
without splitting, and the collector turns the failure into one failed
segment while moving on. -/
theorem bisection_depth_capped_witness :
    fetchMaxDepth timeout504Upstream ⟨some 0, some 10⟩ 0 ≤ 5 ∧
    fetchSegmentLogs timeout504Upstream ⟨some 0, some 86400⟩ 5 =
      Except.error ⟨504, "upstream timeout"⟩ ∧
    (∃ st', collectSegments timeout504Upstream oneDayRange none 1 [⟨some 0, some 10⟩]
              ⟨[], initDebug oneDayRange 1⟩ =
            collectSegments timeout504Upstream oneDayRange none 1 [] st' ∧
            st'.debug.segmentsFailed =
              (⟨[], initDebug oneDayRange 1⟩ : CollectState).debug.segmentsFailed + 1 ∧
            st'.collectedLogs = (⟨[], initDebug oneDayRange 1⟩ : CollectState).collectedLogs) := by
  refine ⟨bisection_depth_capped.1 timeout504Upstream _,
          bisection_depth_capped.2.1 timeout504Upstream 0 86400 (by decide),
          bisection_depth_capped.2.2 timeout504Upstream oneDayRange none 1 _ [] _
            ⟨504, "upstream timeout"⟩ ?_⟩
  rw [fetchSegmentLogs]
  simp [timeout504Upstream, respOk]

/-- C4 — The collector never propagates a per-segment failure: a segment
whose fetch throws is recorded (one more attempt, one more failure, the
header and failure messages appended) and the loop continues with the
remaining segments; and `fetchGatewayLogs` can only end in an error through
the fallback query — for every pattern of per-segment outcomes the walk
itself completes and produces its state. -/
theorem collector_tolerates_segment_failures :
    (∀ (upstream : Segment → Resp) (rangeDescriptor : RangeDescriptor)
        (maxLogs : Option Nat) (planned : Nat) (segment : Segment)
        (rest : List Segment) (st : CollectState) (e : UpstreamErr),
        fetchSegmentLogs upstream segment 0 = Except.error e →
        collectSegments upstream rangeDescriptor maxLogs planned (segment :: rest) st =
          collectSegments upstream rangeDescriptor maxLogs planned rest
            { st with debug := { st.debug with
                segmentsAttempted := st.debug.segmentsAttempted + 1,
                segmentsFailed := st.debug.segmentsFailed + 1,
                messages := st.debug.messages
                  ++ [TraceMsg.segmentHeader (st.debug.segmentsAttempted + 1) planned]
                  ++ [TraceMsg.segmentFailure (st.debug.segmentsAttempted + 1)] } }) ∧
    (∀ (upstream : Segment → Resp) (rangeDescriptor : RangeDescriptor)
        (nowSeconds : Int) (e : UpstreamErr),
        fetchGatewayLogs upstream rangeDescriptor nowSeconds = Except.error e →
        fetchSegmentLogs upstream ⟨none, none⟩ 0 = Except.error e ∧
        (collectorRun upstream rangeDescriptor nowSeconds).collectedLogs = []) := by
  constructor
  · intro upstream rangeDescriptor maxLogs planned segment rest st e hfail
    simp only [collectSegments, hfail]
  · intro upstream rangeDescriptor nowSeconds e h
    unfold fetchGatewayLogs at h
    dsimp only at h
    by_cases hlen : (collectorRun upstream rangeDescriptor nowSeconds).collectedLogs.length = 0
    · rw [if_pos hlen] at h
      cases hfb : fetchSegmentLogs upstream ⟨none, none⟩ 0 with
      | error e2 =>
        rw [hfb] at h
        injection h with h
        subst h
        exact ⟨rfl, List.length_eq_zero.mp hlen⟩
      | ok fallbackLogs =>
        rw [hfb] at h
        exact absurd h (by simp)
    · rw [if_neg hlen] at h
      exact absurd h (by simp)

/-- Witness for C4: with an upstream that always answers 500, the single
`1d` segment at `now = 10` fails, is recorded, and the overall run ends in
the fallback's error — the walk itself completed with an empty state. -/
theorem collector_tolerates_segment_failures_witness :
    (collectSegments failingUpstream oneDayRange none 1 [⟨some 0, some 10⟩]
        ⟨[], initDebug oneDayRange 1⟩ =
      collectSegments failingUpstream oneDayRange none 1 []
        { (⟨[], initDebug oneDayRange 1⟩ : CollectState) with
          debug := { (⟨[], initDebug oneDayRange 1⟩ : CollectState).debug with
            segmentsAttempted := 0 + 1,
            segmentsFailed := 0 + 1,
            messages := []
              ++ [TraceMsg.segmentHeader (0 + 1) 1]
              ++ [TraceMsg.segmentFailure (0 + 1)] } }) ∧
    (fetchSegmentLogs failingUpstream ⟨none, none⟩ 0 = Except.error ⟨500, "boom"⟩ ∧
     (collectorRun failingUpstream oneDayRange 10).collectedLogs = []) := by
  constructor
  · have h := collector_tolerates_segment_failures.1 failingUpstream oneDayRange none 1
      ⟨some 0, some 10⟩ [] ⟨[], initDebug oneDayRange 1⟩ ⟨500, "boom"⟩
      (by rw [fetchSegmentLogs]; simp [failingUpstream, respOk])
    exact h
  · refine collector_tolerates_segment_failures.2 failingUpstream oneDayRange 10
      ⟨500, "boom"⟩ ?_
    have hseg : fetchSegmentLogs failingUpstream ⟨some (0:Int), some 10⟩ 0 =
        Except.error ⟨500, "boom"⟩ := by
      rw [fetchSegmentLogs]; simp [failingUpstream, respOk]
    have hnull : fetchSegmentLogs failingUpstream ⟨none, none⟩ 0 =
        Except.error ⟨500, "boom"⟩ := by
      rw [fetchSegmentLogs]; simp [failingUpstream, respOk]
    have hrun : collectorRun failingUpstream oneDayRange 10 =
        collectSegments failingUpstream oneDayRange none 1 []
          { (⟨[], initDebug oneDayRange 1⟩ : CollectState) with
            debug := { (⟨[], initDebug oneDayRange 1⟩ : CollectState).debug with
              segmentsAttempted := 0 + 1,
              segmentsFailed := 0 + 1,
              messages := []
                ++ [TraceMsg.segmentHeader (0 + 1) 1]
                ++ [TraceMsg.segmentFailure (0 + 1)] } } := by
      unfold collectorRun
      rw [show buildSegments oneDayRange 10 = [⟨some 0, some 10⟩] from by decide]
      simp only [oneDayRange, collectSegments, hseg]
      rfl
    unfold fetchGatewayLogs
    rw [hrun]
    simp only [collectSegments]
    simp [hnull]

theorem collectSegments_preserves_effective (upstream : Segment → Resp)
    (rangeDescriptor : RangeDescriptor) (maxLogs : Option Nat) (planned : Nat) :
    ∀ (segments : List Segment) (st : CollectState),
      (collectSegments upstream rangeDescriptor maxLogs planned segments st).debug.fallbackUsed
          = st.debug.fallbackUsed ∧
      (collectSegments upstream rangeDescriptor maxLogs planned segments st).debug.effectiveRangeKey
          = st.debug.effectiveRangeKey := by
  intro segments
  induction segments with
  | nil => intro st; exact ⟨rfl, rfl⟩
  | cons segment rest ih =>
    intro st
    simp only [collectSegments]
    split
    · exact ih _
    · repeat' split
      all_goals first
        | exact ih _
        | exact ⟨rfl, rfl⟩

/-- C5 — The unbounded "latest" fallback query decides the result exactly
when the walk collected zero logs: in that case the returned logs are the
fallback query's records (or its error propagates) and the returned trace
has `fallbackUsed = true` and `effectiveRangeKey = "latest"`; when the walk
collected anything, the result is those logs with `fallbackUsed = false`
and the requested `effectiveRangeKey`. -/
theorem fallback_iff_zero_collected (upstream : Segment → Resp)
    (rangeDescriptor : RangeDescriptor) (nowSeconds : Int) :
    ((collectorRun upstream rangeDescriptor nowSeconds).collectedLogs = [] →
      (∀ e, fetchSegmentLogs upstream ⟨none, none⟩ 0 = Except.error e →
        fetchGatewayLogs upstream rangeDescriptor nowSeconds = Except.error e) ∧
      (∀ fallbackLogs, fetchSegmentLogs upstream ⟨none, none⟩ 0 = Except.ok fallbackLogs →
        ∃ d, fetchGatewayLogs upstream rangeDescriptor nowSeconds =
               Except.ok ⟨fallbackLogs, d⟩ ∧
             d.fallbackUsed = true ∧ d.effectiveRangeKey = "latest")) ∧
    ((collectorRun upstream rangeDescriptor nowSeconds).collectedLogs ≠ [] →
      ∃ d, fetchGatewayLogs upstream rangeDescriptor nowSeconds =
             Except.ok ⟨(collectorRun upstream rangeDescriptor nowSeconds).collectedLogs, d⟩ ∧
           d.fallbackUsed = false ∧ d.effectiveRangeKey = rangeDescriptor.key) := by
  constructor
  · intro hempty
    have hlen : (collectorRun upstream rangeDescriptor nowSeconds).collectedLogs.length = 0 := by
      rw [hempty]; rfl
    constructor
    · intro e hfb
      unfold fetchGatewayLogs
      rw [if_pos hlen, hfb]
    · intro fallbackLogs hfb
      have hfg : fetchGatewayLogs upstream rangeDescriptor nowSeconds =
          Except.ok ⟨fallbackLogs,
            { (collectorRun upstream rangeDescriptor nowSeconds).debug with
                fallbackUsed := true,
                effectiveRangeKey := "latest",
                effectiveRangeLabel := "Latest 1000 records",
                totalLogs := fallbackLogs.length,
                segmentsPlanned :=
                  (collectorRun upstream rangeDescriptor nowSeconds).debug.segmentsPlanned + 1,
                segmentsAttempted :=
                  (collectorRun upstream rangeDescriptor nowSeconds).debug.segmentsAttempted + 1,
                segmentsSucceeded :=
                  (collectorRun upstream rangeDescriptor nowSeconds).debug.segmentsSucceeded + 1,
                messages := (collectorRun upstream rangeDescriptor nowSeconds).debug.messages
                  ++ [TraceMsg.fallbackStart] ++ [TraceMsg.fallbackResult fallbackLogs.length] }⟩ := by
        unfold fetchGatewayLogs
        rw [if_pos hlen, hfb]
      exact ⟨_, hfg, rfl, rfl⟩
  · intro hne
    have hlen : ¬ (collectorRun upstream rangeDescriptor nowSeconds).collectedLogs.length = 0 := by
      intro h0
      exact hne (List.length_eq_zero.mp h0)
    have hpres := collectSegments_preserves_effective upstream rangeDescriptor
      (if rangeDescriptor.days = none then some 200000 else none)
      (buildSegments rangeDescriptor nowSeconds).length
      (buildSegments rangeDescriptor nowSeconds)
      ⟨[], initDebug rangeDescriptor (buildSegments rangeDescriptor nowSeconds).length⟩
    have hfg : fetchGatewayLogs upstream rangeDescriptor nowSeconds =
        Except.ok ⟨(collectorRun upstream rangeDescriptor nowSeconds).collectedLogs,
          { (collectorRun upstream rangeDescriptor nowSeconds).debug with
              totalLogs := (collectorRun upstream rangeDescriptor nowSeconds).collectedLogs.length,
              messages := (collectorRun upstream rangeDescriptor nowSeconds).debug.messages
                ++ [TraceMsg.completed] }⟩ := by
      unfold fetchGatewayLogs
      rw [if_neg hlen]
    exact ⟨_, hfg, hpres.1.trans rfl, hpres.2.trans rfl⟩

/-- Witness for C5, both directions: an upstream with empty bounded windows
but data behind the "latest" query triggers the fallback with the relabelled
trace, and an upstream with data in the window returns the collected logs
without the fallback. -/
theorem fallback_iff_zero_collected_witness :
    (∃ d, fetchGatewayLogs emptyThenLatestUpstream oneDayRange 10 =
            Except.ok ⟨[sampleLog], d⟩ ∧
          d.fallbackUsed = true ∧ d.effectiveRangeKey = "latest") ∧
    (∃ d, fetchGatewayLogs okUpstream oneDayRange 10 =
            Except.ok ⟨(collectorRun okUpstream oneDayRange 10).collectedLogs, d⟩ ∧
          d.fallbackUsed = false ∧ d.effectiveRangeKey = "1d") := by
  constructor
  · have hseg : fetchSegmentLogs emptyThenLatestUpstream ⟨some (0:Int), some 10⟩ 0 =
        Except.ok [] := by
      rw [fetchSegmentLogs]; simp [emptyThenLatestUpstream, respOk]
    have hfb : fetchSegmentLogs emptyThenLatestUpstream ⟨none, none⟩ 0 =
        Except.ok [sampleLog] := by
      rw [fetchSegmentLogs]; simp [emptyThenLatestUpstream, respOk]
    have hempty : (collectorRun emptyThenLatestUpstream oneDayRange 10).collectedLogs = [] := by
      unfold collectorRun
      rw [show buildSegments oneDayRange 10 = [⟨some 0, some 10⟩] from by decide]
      simp [collectSegments, hseg, oneDayRange, limitHit, initDebug]
    exact (fallback_iff_zero_collected emptyThenLatestUpstream oneDayRange 10).1 hempty
      |>.2 [sampleLog] hfb
  · have hseg : fetchSegmentLogs okUpstream ⟨some (0:Int), some 10⟩ 0 =
        Except.ok [sampleLog] := by
      rw [fetchSegmentLogs]; simp [okUpstream, respOk]
    have hne : (collectorRun okUpstream oneDayRange 10).collectedLogs ≠ [] := by
      unfold collectorRun
      rw [show buildSegments oneDayRange 10 = [⟨some 0, some 10⟩] from by decide]
      simp [collectSegments, hseg, oneDayRange, limitHit, initDebug]
    exact (fallback_iff_zero_collected okUpstream oneDayRange 10).2 hne

theorem enriched_filter_map_log (env : JsDate) (p : Option Int → Bool) :
    ∀ logs : List LogRecord,
      (((logs.map (fun log => EnrichedLog.mk log (extractLogTimestamp env log))).filter
          (fun entry => p entry.timestamp)).map (fun entry => entry.log))
        = logs.filter (fun log => p (extractLogTimestamp env log)) := by
  intro logs
  induction logs with
  | nil => rfl
  | cons l ls ih =>
    by_cases h : p (extractLogTimestamp env l) <;>
      simp [List.filter_cons, h, ih]

/-- C6 — For every log list and bounded descriptor, the Range Post-Filter
never drops a record with an unparseable timestamp: if no timestamp in the
list parses, every record is kept unchanged, and otherwise the output is
exactly the input filtered to "timestamp unparseable, or at least
`maxKnownTimestamp - days * 86400000`" — so an unparseable record always
appears in the output, and a parsed one is dropped exactly when it is older
than the cutoff. -/
theorem filterLogsByRange_keeps_unparseable (env : JsDate) (logs : List LogRecord)
    (key label : String) (days : Int) :
    (logs.filterMap (fun log => extractLogTimestamp env log) = [] →
      (filterLogsByRange env logs ⟨key, label, some days⟩).logs = logs) ∧
    (∀ t0 trest, logs.filterMap (fun log => extractLogTimestamp env log) = t0 :: trest →
      (filterLogsByRange env logs ⟨key, label, some days⟩).logs =
        logs.filter (fun log =>
          match extractLogTimestamp env log with
          | none => true
          | some t => decide (t ≥
              (t0 :: trest).foldl (fun mx t2 => if t2 > mx then t2 else mx) t0
                - days * DAY_IN_MS))) ∧
    (∀ log ∈ logs, extractLogTimestamp env log = none →
      log ∈ (filterLogsByRange env logs ⟨key, label, some days⟩).logs) := by
  have hcomp : ∀ (L : List LogRecord),
      (L.map (fun log => EnrichedLog.mk log (extractLogTimestamp env log))).filterMap
          (fun entry => entry.timestamp)
        = L.filterMap (fun log => extractLogTimestamp env log) := by
    intro L
    rw [List.filterMap_map]
    rfl
  refine ⟨?_, ?_, ?_⟩
  · intro hnone
    cases logs with
    | nil => rfl
    | cons l ls =>
      unfold filterLogsByRange
      dsimp only
      rw [hcomp, hnone]
  · intro t0 trest hsome
    cases logs with
    | nil => simp at hsome
    | cons l ls =>
      unfold filterLogsByRange
      dsimp only
      rw [hcomp, hsome]
      dsimp only
      exact enriched_filter_map_log env
        (fun o =>
          match o with
          | none => true
          | some t => decide (t ≥
              List.foldl (fun mx t2 => if t2 > mx then t2 else mx) t0 (t0 :: trest)
                - days * DAY_IN_MS))
        (l :: ls)
  · intro log hmem hts
    rcases hknown : logs.filterMap (fun log => extractLogTimestamp env log) with _ | ⟨t0, trest⟩
    · cases logs with
      | nil => cases hmem
      | cons l ls =>
        unfold filterLogsByRange
        dsimp only
        rw [hcomp, hknown]
        exact hmem
    · cases logs with
      | nil => cases hmem
      | cons l ls =>
        unfold filterLogsByRange
        dsimp only
        rw [hcomp, hknown]
        dsimp only
        refine List.mem_map.mpr ⟨⟨log, extractLogTimestamp env log⟩, ?_, rfl⟩
        rw [List.mem_filter]
        refine ⟨List.mem_map.mpr ⟨log, hmem, rfl⟩, ?_⟩
        dsimp only
        rw [hts]

/-- Witness for C6: with an ambience in which no string parses, a record
with no timestamp fields survives the `7d` filter alongside a fresh record,
and with no parseable records at all everything is kept. -/
theorem filterLogsByRange_keeps_unparseable_witness :
    ((filterLogsByRange jsDateNone [noTsLog] ⟨"7d", "Last 7 days", some 7⟩).logs = [noTsLog]) ∧
    ((filterLogsByRange jsDateNone [noTsLog, tsLog] ⟨"7d", "Last 7 days", some 7⟩).logs =
      [noTsLog, tsLog].filter (fun log =>
        match extractLogTimestamp jsDateNone log with
        | none => true
        | some t => decide (t ≥
            ((2000000000000 : Int) :: []).foldl (fun mx t2 => if t2 > mx then t2 else mx)
              2000000000000 - 7 * DAY_IN_MS))) ∧
    (noTsLog ∈ (filterLogsByRange jsDateNone [noTsLog, tsLog]
        ⟨"7d", "Last 7 days", some 7⟩).logs) := by
  refine ⟨?_, ?_, ?_⟩
  · exact (filterLogsByRange_keeps_unparseable jsDateNone [noTsLog] "7d" "Last 7 days" 7).1
      (by decide)
  · exact (filterLogsByRange_keeps_unparseable jsDateNone [noTsLog, tsLog] "7d" "Last 7 days"
      7).2.1 2000000000000 [] (by decide)
  · exact (filterLogsByRange_keeps_unparseable jsDateNone [noTsLog, tsLog] "7d" "Last 7 days"
      7).2.2 noTsLog (by decide) (by decide)

/-- C7 — For every cached, parseable edge body that is present but expired
(`ttl ≤ now - fetchedAt`) and a non-forced request, the edge function
serves the stale body immediately — same summary fields, `meta.fromCache`
set — and schedules the background `waitUntil` refresh
(`EdgeAction.staleRefresh`); the served body is computed from the cached
body alone, so it can never block on (or depend on) the refresh. -/
theorem edge_stale_serves_and_refreshes (cachedJson : CachedSummary) (m : EdgeMeta)
    (fetchedAt now ttlMs : Int) (hm : cachedJson.meta = some m)
    (hf : m.fetchedAt = some fetchedAt) (hexp : ttlMs ≤ now - fetchedAt) :
    onRequestCachePath (some cachedJson) false now ttlMs =
      EdgeAction.staleRefresh (markFromCache cachedJson) ∧
    (markFromCache cachedJson).meta = some ⟨some fetchedAt, true⟩ ∧
    (markFromCache cachedJson).topBlocked = cachedJson.topBlocked ∧
    (markFromCache cachedJson).totals = cachedJson.totals := by
  have hfresh : isFresh (some cachedJson) now ttlMs = false := by
    simp only [isFresh, hm, hf]
    simp only [decide_eq_false_iff_not]
    omega
  refine ⟨?_, ?_, rfl, rfl⟩
  · simp [onRequestCachePath, hfresh]
  · simp [markFromCache, hm, hf]

/-- Witness for C7: the body cached at 100 served at `now = 21600200` with a
six-hour TTL. -/
theorem edge_stale_serves_and_refreshes_witness :
    onRequestCachePath (some staleJson) false 21600200 21600000 =
      EdgeAction.staleRefresh (markFromCache staleJson) ∧
    (markFromCache staleJson).meta = some ⟨some 100, true⟩ ∧
    (markFromCache staleJson).topBlocked = staleJson.topBlocked ∧
    (markFromCache staleJson).totals = staleJson.totals :=
  edge_stale_serves_and_refreshes staleJson ⟨some 100, false⟩ 100 21600200 21600000
    (by decide) (by decide) (by decide)

theorem ensureFetchPath_expires (env : JsDate) (rangeDescriptor : RangeDescriptor)
    (ttlMs : Int) (fetchOutcome : FetchOutcome) (e : CacheEntry)
    (h : (ensureFetchPath env rangeDescriptor ttlMs fetchOutcome).cacheAfter = some e) :
    e.expiresAt = e.fetchedAt + ttlMs := by
  cases fetchOutcome with
  | success res fetchTimestamp =>
    simp only [ensureFetchPath] at h
    injection h with h
    subst h
    rfl
  | upstreamFailure e2 => simp [ensureFetchPath] at h
  | abortError => simp [ensureFetchPath] at h

theorem ensureFetchPath_serves (env : JsDate) (rangeDescriptor : RangeDescriptor)
    (ttlMs : Int) (fetchOutcome : FetchOutcome) (e : CacheEntry)
    (h : (ensureFetchPath env rangeDescriptor ttlMs fetchOutcome).cacheAfter = some e) :
    ∃ s, e.summary = some s ∧
      (ensureFetchPath env rangeDescriptor ttlMs fetchOutcome).outcome = Except.ok s := by
  cases fetchOutcome with
  | success res fetchTimestamp =>
    simp only [ensureFetchPath] at h ⊢
    injection h with h
    subst h
    exact ⟨_, rfl, rfl⟩
  | upstreamFailure e2 => simp [ensureFetchPath] at h
  | abortError => simp [ensureFetchPath] at h

/-- C8 — Server cache round trip: any entry the cache layer stores from a
fetch satisfies `expiresAt = fetchedAt + TTL` (and a cache hit preserves the
entry, so the invariant is stable); a stored entry is valid exactly when
`now < expiresAt`; a call that ends with an entry in the cache returned that
entry's summary; and a second non-forced `get` while the entry is valid
performs zero upstream calls, leaves the entry untouched and returns the
identical summary value. -/
theorem cache_second_get_within_ttl :
    (∀ (env : JsDate) (rangeDescriptor : RangeDescriptor) (entry : Option CacheEntry)
        (forceRefresh : Bool) (now ttlMs : Int) (fetchOutcome : FetchOutcome)
        (e : CacheEntry),
        (∀ e0, entry = some e0 → e0.expiresAt = e0.fetchedAt + ttlMs) →
        (ensureRangeCached env rangeDescriptor entry forceRefresh now ttlMs
            fetchOutcome).cacheAfter = some e →
        e.expiresAt = e.fetchedAt + ttlMs) ∧
    (∀ (e : CacheEntry) (s : Summary) (now : Int), e.summary = some s →
        (isCacheValid (some e) now = true ↔ now < e.expiresAt)) ∧
    (∀ (env : JsDate) (rangeDescriptor : RangeDescriptor) (entry : Option CacheEntry)
        (forceRefresh : Bool) (now ttlMs : Int) (fetchOutcome : FetchOutcome)
        (e : CacheEntry),
        (ensureRangeCached env rangeDescriptor entry forceRefresh now ttlMs
            fetchOutcome).cacheAfter = some e →
        ∃ s, e.summary = some s ∧
          (ensureRangeCached env rangeDescriptor entry forceRefresh now ttlMs
              fetchOutcome).outcome = Except.ok s) ∧
    (∀ (env : JsDate) (rangeDescriptor : RangeDescriptor) (e : CacheEntry) (s : Summary)
        (now2 ttlMs : Int) (fetchOutcome : FetchOutcome),
        e.summary = some s → now2 < e.expiresAt →
        ensureRangeCached env rangeDescriptor (some e) false now2 ttlMs fetchOutcome =
          ⟨Except.ok s, some e, 0⟩) := by
  refine ⟨?_, ?_, ?_, ?_⟩
  · intro env rangeDescriptor entry forceRefresh now ttlMs fetchOutcome e hinv hafter
    rcases entry with _ | ⟨(_ | s0), meta0, fetchedAt0, expiresAt0, logs0⟩
    · exact ensureFetchPath_expires env rangeDescriptor ttlMs fetchOutcome e hafter
    · exact ensureFetchPath_expires env rangeDescriptor ttlMs fetchOutcome e hafter
    · simp only [ensureRangeCached] at hafter
      by_cases hc : forceRefresh = false ∧ now < expiresAt0
      · rw [if_pos hc] at hafter
        simp only [] at hafter
        injection hafter with hafter
        subst hafter
        exact hinv _ rfl
      · rw [if_neg hc] at hafter
        exact ensureFetchPath_expires env rangeDescriptor ttlMs fetchOutcome e hafter
  · intro e s now hs
    simp [isCacheValid, hs]
  · intro env rangeDescriptor entry forceRefresh now ttlMs fetchOutcome e hafter
    rcases entry with _ | ⟨(_ | s0), meta0, fetchedAt0, expiresAt0, logs0⟩
    · exact ensureFetchPath_serves env rangeDescriptor ttlMs fetchOutcome e hafter
    · exact ensureFetchPath_serves env rangeDescriptor ttlMs fetchOutcome e hafter
    · simp only [ensureRangeCached] at hafter ⊢
      by_cases hc : forceRefresh = false ∧ now < expiresAt0
      · rw [if_pos hc] at hafter ⊢
        simp only [] at hafter
        injection hafter with hafter
        subst hafter
        exact ⟨s0, rfl, rfl⟩
      · rw [if_neg hc] at hafter ⊢
        exact ensureFetchPath_serves env rangeDescriptor ttlMs fetchOutcome e hafter
  · intro env rangeDescriptor e s now2 ttlMs fetchOutcome hs hvalid
    rcases e with ⟨(_ | s0), meta0, fetchedAt0, expiresAt0, logs0⟩
    · exact absurd hs (by simp)
    · injection hs with hs
      subst hs
      simp [ensureRangeCached, hvalid]

/-- Witness for C8: a second non-forced `get` at `now = 2000` against the
entry stored at 1000 with a six-hour TTL is a pure cache hit. -/
theorem cache_second_get_within_ttl_witness :
    (isCacheValid (some freshEntry) 2000 = true ↔ (2000 : Int) < freshEntry.expiresAt) ∧
    ensureRangeCached jsDateNone ⟨"7d", "Last 7 days", some 7⟩ (some freshEntry) false
        2000 21600000 FetchOutcome.abortError =
      ⟨Except.ok cachedSummary0, some freshEntry, 0⟩ :=
  ⟨cache_second_get_within_ttl.2.1 freshEntry cachedSummary0 2000 (by decide),
   cache_second_get_within_ttl.2.2.2 jsDateNone ⟨"7d", "Last 7 days", some 7⟩ freshEntry
     cachedSummary0 2000 21600000 FetchOutcome.abortError (by decide) (by decide)⟩

/-- Amended C9 — When an in-flight fetch for a range key ends in
`AbortError`, the error propagates with no summary served, but the cache
entry for the key is not left untouched: the `catch` in `ensureRangeCached`
runs `rangeCache.delete(cacheKey)` before rethrowing, so the entry —
including any previously cached summary, metadata, timestamps and logs — is
removed rather than reverted to its prior state. -/
theorem abort_deletes_cache_entry (env : JsDate) (rangeDescriptor : RangeDescriptor)
    (entry : Option CacheEntry) (forceRefresh : Bool) (now ttlMs : Int)
    (hfetch : forceRefresh = true ∨ isCacheValid entry now = false) :
    ensureRangeCached env rangeDescriptor entry forceRefresh now ttlMs
        FetchOutcome.abortError =
      ⟨Except.error EnsureErr.abortError, none, 1⟩ := by
  rcases entry with _ | ⟨(_ | s0), meta0, fetchedAt0, expiresAt0, logs0⟩
  · rfl
  · rfl
  · have hnc : ¬ (forceRefresh = false ∧ now < expiresAt0) := by
      rcases hfetch with hforce | hvalid
      · subst hforce
        intro hc
        exact absurd hc.1 (by decide)
      · simp only [isCacheValid, Option.isSome_some, Bool.true_and,
          decide_eq_false_iff_not] at hvalid
        intro hc
        omega
    simp only [ensureRangeCached]
    rw [if_neg hnc]
    rfl

/-- Witness for the amended C9: a stale entry with previously cached data is
deleted by an aborted refresh. -/
theorem abort_deletes_cache_entry_witness :
    ensureRangeCached jsDateNone ⟨"7d", "Last 7 days", some 7⟩ (some priorEntry) false
        200 21600000 FetchOutcome.abortError =
      ⟨Except.error EnsureErr.abortError, none, 1⟩ :=
  abort_deletes_cache_entry jsDateNone ⟨"7d", "Last 7 days", some 7⟩ (some priorEntry)
    false 200 21600000 (Or.inr (by decide))

/-- Counterexample to C9 as stated: `priorEntry` holds a previously cached
summary for the key; after its stale-refresh fetch is cancelled
(`AbortError`) the cache no longer holds that entry — it was deleted, not
reverted to its prior state. -/
theorem abort_deletes_cache_entry_counterexample :
    (ensureRangeCached jsDateNone ⟨"7d", "Last 7 days", some 7⟩ (some priorEntry) false
        200 21600000 FetchOutcome.abortError).cacheAfter = none ∧
    ¬ (ensureRangeCached jsDateNone ⟨"7d", "Last 7 days", some 7⟩ (some priorEntry) false
        200 21600000 FetchOutcome.abortError).cacheAfter = some priorEntry := by
  constructor
  · rfl
  · intro h
    cases h

/-- C10 — On the spec's three-record example the Aggregator counts the two
`dns_block`/`tls_block` records as blocked hits on `ads.example.com` and the
`allow` record as allowed (the `server.js`/`fetch-summary.js`
`summarizeLogs`; the edge variant's word-bounded regex differs, see
`isBlockedEdge_misses_dns_block`). -/
theorem summarizeLogs_end_to_end :
    summarizeLogs [c10Log1, c10Log2, c10Log3] =
      { topBlocked := [⟨"ads.example.com", 2⟩], totals := ⟨2, 1⟩ } := by
  decide

/-- The edge-function variant of `isBlocked` does not classify the
`dns_block` record as blocked: its `/\b(block|blocked)\b/i` sees no word
boundary between `_` and `block`.  (Recorded as a divergence between the two
pipeline variants; C10's aggregation step is the server/script one.) -/
theorem isBlockedEdge_misses_dns_block :
    isBlockedEdge c10Log1 = false ∧ isBlocked c10Log1 = true := by
  decide
